import Mathlib

/-!
Verification of the ETL pipeline and read API of the Graph-Knowledge-TP2
repository (src/app/etl.py and src/app/main.py).

The relevant Python code is shallowly embedded as Lean definitions:

* `chunk` models `chunk(data, size)` (etl.py lines 119-130): a list
  comprehension over `range(0, len(data), size)` slicing `data[i:i+size]`.
  Python `range` raises `ValueError` on a zero step, which is modelled by the
  `none` result; for a negative step and a non-negative stop the range is
  empty.
* `relTypeOf` models the event-type to relationship-kind mapping
  (etl.py lines 300-308).
* `isoformat`/`tsToGraph` model `record['ts'].isoformat().replace('+00:00', 'Z')`
  (etl.py lines 279 and 311) at whole-second granularity, over a timestamp
  represented as an instant (seconds from the epoch) plus an optional UTC
  offset in minutes; naive timestamps render without an offset suffix, aware
  ones with a sign, zero-padded hours and minutes, exactly as
  `datetime.isoformat` does.  The calendar body is rendered with the standard
  civil-from-days algorithm.
* `runCypherFileStatements` models the statement list executed by
  `run_cypher_file` (etl.py lines 94-116): split on semicolons, strip each
  piece, drop pieces that are empty or start with `//`.
* `Graph`, the `create*` functions, `loadRows` and `etlLoad` model the load
  phase of `etl()` (etl.py lines 176-327) over an explicit graph state.
  Node and relationship identity is label plus `id`; other payload
  properties (names, prices, quantities, timestamps) are carried by the rows
  but elided from the graph state, since no claim inspects them there.
  A Cypher `MATCH ... CREATE` creates one relationship per matched node
  combination and silently creates nothing when a match is empty.
* `etlResourceTrace` models the resource behaviour of `etl()`
  (etl.py lines 152-352): both connections are acquired before the
  `try`, and the `finally` block closes both.
* `health_check`, `graph_stats` and the other endpoint wrappers model the
  error handling of the FastAPI endpoints (main.py): every endpoint except
  `/health` turns a database exception into an HTTP 500 error, while
  `/health` returns a normal body `{ok: false, error: ...}`.
-/

namespace ShopGraph

/-! ## Batch chunking (etl.py `chunk`) -/

/-- Models Python `range(start, stop, step)` for a non-negative step: for
`step = 0` the guard fails immediately and the result is `[]` (the `step = 0`
case is excluded before `rangeStep` is ever used, because Python raises
`ValueError` there). -/
def rangeStep (start stop step : Nat) : List Nat :=
  if h : 0 < step ∧ start < stop then start :: rangeStep (start + step) stop step else []
termination_by stop - start
decreasing_by omega

/-- The list comprehension `[data[i:i + size] for i in range(0, len(data), size)]`
for a positive size. -/
def chunkGo (data : List α) (s : Nat) : List (List α) :=
  (rangeStep 0 data.length s).map (fun i => (data.drop i).take s)

/-- Models `chunk(data, size)` (etl.py lines 119-130).  `none` models the
`ValueError` raised by `range(0, len(data), 0)`; for a negative size,
`range(0, len(data), size)` is empty (the stop is non-negative), so no chunk
is produced. -/
def chunk (data : List α) (size : Int) : Option (List (List α)) :=
  if size = 0 then none
  else if size < 0 then some []
  else some (chunkGo data size.toNat)

/-- The sequence of bulk mutation payloads issued for one batched entity
type: `for batch in chunk(df): run_cypher(driver, query, batch)` issues one
mutation per chunk, with the chunk as payload (etl.py lines 221-223, 239-241,
254-259, 274-280, 291-293).  The chunk size is the default 500. -/
def batchedLoadTrace (rows : List ρ) : List (List ρ) :=
  (chunk rows 500).getD []

/-- The sequence of single-row mutation payloads issued for events:
`for batch in chunk(df_events): for record in batch: run_cypher(...)`
issues one mutation per event row (etl.py lines 298-327). -/
def eventLoadTrace (rows : List ρ) : List ρ :=
  ((chunk rows 500).getD []).flatten

/-! ## Event-type mapping (etl.py lines 300-308) -/

/-- Models Python `str.upper()` (accurate on the ASCII event types used by the
mapping table). -/
def pyUpper (s : String) : String :=
  String.mk (s.data.map Char.toUpper)

/-- The `rel_type_map` dictionary of etl.py lines 303-307. -/
def rel_type_map : List (String × String) :=
  [("VIEW", "VIEWED"), ("CLICK", "CLICKED"), ("ADD_TO_CART", "ADDED_TO_CART")]

/-- Models `rel_type_map.get(record['event_type'].upper(), 'INTERACTED_WITH')`
(etl.py lines 301-308). -/
def relTypeOf (event_type : String) : String :=
  (rel_type_map.lookup (pyUpper event_type)).getD "INTERACTED_WITH"

/-! ## Timestamp normalization (etl.py lines 279 and 311) -/

/-- The decimal digit character for `d % 10`. -/
def digitChar (d : Nat) : Char :=
  if d % 10 = 0 then '0' else if d % 10 = 1 then '1' else if d % 10 = 2 then '2'
  else if d % 10 = 3 then '3' else if d % 10 = 4 then '4' else if d % 10 = 5 then '5'
  else if d % 10 = 6 then '6' else if d % 10 = 7 then '7' else if d % 10 = 8 then '8'
  else '9'

/-- Decimal digits of `n`, most significant first, accumulated into `acc`. -/
def natDigitsAux : Nat → List Char → List Char
  | 0, acc => acc
  | n + 1, acc => natDigitsAux ((n + 1) / 10) (digitChar ((n + 1) % 10) :: acc)
decreasing_by exact Nat.div_lt_self (Nat.succ_pos n) (by omega)

/-- Decimal rendering of a natural number. -/
def natDigits (n : Nat) : List Char :=
  if n = 0 then ['0'] else natDigitsAux n []

/-- Zero-padded decimal rendering, width `w`. -/
def padNum (w n : Nat) : List Char :=
  List.replicate (w - (natDigits n).length) '0' ++ natDigits n

/-- Year rendering (negative years get a leading minus sign). -/
def intPad4 (y : Int) : List Char :=
  if y < 0 then '-' :: padNum 4 y.natAbs else padNum 4 y.natAbs

/-- Civil date from days since 1970-01-01 (the standard civil-from-days
algorithm): year, month, day. -/
def civilFromDays (z0 : Int) : Int × Nat × Nat :=
  let z := z0 + 719468
  let era := z.ediv 146097
  let doe := (z - era * 146097).toNat
  let yoe := (doe - doe / 1460 + doe / 36524 - doe / 146096) / 365
  let y0 : Int := (yoe : Int) + era * 400
  let doy := doe - (365 * yoe + yoe / 4 - yoe / 100)
  let mp := (5 * doy + 2) / 153
  let d := doy - (153 * mp + 2) / 5 + 1
  let m := if mp < 10 then mp + 3 else mp - 9
  (if m ≤ 2 then y0 + 1 else y0, m, d)

/-- The `YYYY-MM-DDTHH:MM:SS` body of `datetime.isoformat` for an instant
given in seconds from the epoch. -/
def civilString (sec : Int) : List Char :=
  let days := sec.ediv 86400
  let sod := (sec.emod 86400).toNat
  let c := civilFromDays days
  intPad4 c.1 ++ '-' :: padNum 2 c.2.1 ++ '-' :: padNum 2 c.2.2 ++
    'T' :: padNum 2 (sod / 3600) ++ ':' :: padNum 2 (sod / 60 % 60) ++
    ':' :: padNum 2 (sod % 60)

/-- The `+HH:MM` / `-HH:MM` offset suffix of `datetime.isoformat` for an
aware timestamp with a UTC offset of `o` minutes. -/
def offsetSuffix (o : Int) : List Char :=
  (if o < 0 then '-' else '+') :: (padNum 2 (o.natAbs / 60) ++ ':' :: padNum 2 (o.natAbs % 60))

/-- A pandas timestamp as seen by the transform: an instant in seconds from
the epoch for aware values (the wall-clock reading itself for naive values),
plus an optional UTC offset in minutes (`none` = naive). -/
structure PdTimestamp where
  epochSec : Int
  utcOffsetMin : Option Int
deriving DecidableEq

/-- Models `ts.isoformat()` at whole-second granularity: the civil body of
the displayed wall clock, followed by the offset suffix for aware values. -/
def isoformat (t : PdTimestamp) : List Char :=
  match t.utcOffsetMin with
  | none => civilString t.epochSec
  | some o => civilString (t.epochSec + 60 * o) ++ offsetSuffix o

/-- Models Python `str.replace(pat, rep)` for a non-empty pattern: every
non-overlapping occurrence, scanned left to right, is replaced. -/
def listReplace (s pat rep : List Char) : List Char :=
  match s with
  | [] => []
  | c :: rest =>
    if h : pat ≠ [] ∧ pat.isPrefixOf (c :: rest) = true then
      rep ++ listReplace ((c :: rest).drop pat.length) pat rep
    else
      c :: listReplace rest pat rep
termination_by s.length
decreasing_by
  · simp only [List.length_drop]
    have hle : ∀ (p q : List Char), p.isPrefixOf q = true → p.length ≤ q.length := by
      intro p
      induction p with
      | nil => intro q _; simp
      | cons a as ih =>
        intro q hq
        cases q with
        | nil => simp [List.isPrefixOf] at hq
        | cons b bs =>
          simp only [List.isPrefixOf, Bool.and_eq_true] at hq
          have := ih bs hq.2
          simp only [List.length_cons]
          omega
    have h1 : pat.length ≤ (c :: rest).length := hle pat (c :: rest) h.2
    have h2 : 0 < pat.length := List.length_pos.mpr h.1
    simp only [List.length_cons] at h1 ⊢
    omega
  · simp

/-- Models `record['ts'].isoformat().replace('+00:00', 'Z')`
(etl.py lines 279 and 311): the string handed to the graph store. -/
def tsToGraph (t : PdTimestamp) : List Char :=
  listReplace (isoformat t) (String.toList "+00:00") [ 'Z']

/-- A timestamp value as written in the relational source: a wall-clock
reading (seconds from the epoch of the wall-clock fields) plus how the
source represents the offset (`some 0` = explicit `+00:00`, `none` = no
explicit offset, interpreted as UTC). -/
structure SourceTs where
  wallClockSec : Int
  utcOffsetMin : Option Int
deriving DecidableEq

/-- The instant a source timestamp denotes (a missing offset is UTC). -/
def srcInstant (s : SourceTs) : Int :=
  s.wallClockSec - 60 * (s.utcOffsetMin.getD 0)

/-- Modelled from the spec: the relational schema and the driver-side
conversion of timestamp columns are not part of src/; per the spec the
source's zoned timestamps ("zoned instant", normalized "regardless of how
the source represents the offset") reach the transform as UTC-aware pandas
timestamps, so extraction maps every source representation of an instant to
the aware timestamp of that instant with a `+00:00` offset. -/
def extractTs (s : SourceTs) : PdTimestamp :=
  ⟨srcInstant s, some 0⟩

/-! ## Cypher file statement splitting (etl.py lines 94-116) -/

/-- The `'//'` comment marker. -/
def commentMarker : List Char := [ '/', '/']

/-- Python `str.strip()` whitespace (the ASCII part). -/
def isPySpace (c : Char) : Bool :=
  c == ' ' || c == '\t' || c == '\n' || c == '\x0d' || c == '\x0c' || c == '\x0b'

/-- Models Python `str.strip()`. -/
def pyStrip (s : List Char) : List Char :=
  ((s.dropWhile isPySpace).reverse.dropWhile isPySpace).reverse

/-- Prepends a character to the first segment of a split result. -/
def withHead (c : Char) : List (List Char) → List (List Char)
  | [] => [[c]]
  | seg :: segs => (c :: seg) :: segs

/-- Models Python `str.split(sep)` for a one-character separator. -/
def pySplitChar (sep : Char) : List Char → List (List Char)
  | [] => [[]]
  | c :: rest =>
    if c = sep then [] :: pySplitChar sep rest
    else withHead c (pySplitChar sep rest)

/-- Joins segments with a separator (the left inverse of `pySplitChar`). -/
def joinSep (sep : Char) : List (List Char) → List Char
  | [] => []
  | [x] => x
  | x :: xs => x ++ sep :: joinSep sep xs

/-- The `statements` list of `run_cypher_file` (etl.py lines 107-111):
split the content on semicolons, strip each piece, and keep the pieces that
are non-empty and do not start with `//`. -/
def cypherStatements (content : List Char) : List (List Char) :=
  ((pySplitChar ';' content).map pyStrip).filter
    (fun t => !t.isEmpty && !(commentMarker.isPrefixOf t))

/-- The statements actually executed by the loop of `run_cypher_file`
(etl.py lines 113-116): each statement of the list that is truthy
(non-empty). -/
def runCypherFileStatements (content : List Char) : List (List Char) :=
  (cypherStatements content).filter (fun s => !s.isEmpty)

/-- The claim's reading of `run_cypher_file`, stated from the spec's words
for comparison: first discard blank lines and lines whose stripped text
starts with `//`, then split what remains into semicolon-separated
statements. -/
def claimedStatements (content : List Char) : List (List Char) :=
  let kept := (pySplitChar '\n' content).filter
    (fun l => !(pyStrip l).isEmpty && !(commentMarker.isPrefixOf (pyStrip l)))
  ((pySplitChar ';' (joinSep '\n' kept)).map pyStrip).filter (fun t => !t.isEmpty)

/-! ## Source rows and the graph state (etl.py lines 176-327) -/

/-- A row of the categories table. -/
structure CategoryRow where
  id : Int
  name : String
deriving DecidableEq

/-- A row of the products table. -/
structure ProductRow where
  id : Int
  name : String
  price : Int
  category_id : Int
deriving DecidableEq

/-- A row of the customers table. -/
structure CustomerRow where
  id : Int
  name : String
  join_date : String
deriving DecidableEq

/-- A row of the orders table (`ts` as an instant, see `SourceTs`). -/
structure OrderRow where
  id : Int
  customer_id : Int
  ts : Int
deriving DecidableEq

/-- A row of the order_items table. -/
structure OrderItemRow where
  order_id : Int
  product_id : Int
  quantity : Int
deriving DecidableEq

/-- A row of the events table. -/
structure EventRow where
  id : Int
  customer_id : Int
  product_id : Int
  event_type : String
  ts : Int
deriving DecidableEq

/-- A graph node: label plus identity property (payload properties are
elided, no claim inspects them in the graph state). -/
structure GraphNode where
  label : String
  id : Int
deriving DecidableEq

/-- A directed relationship between two nodes. -/
structure GraphRel where
  kind : String
  srcLabel : String
  srcId : Int
  dstLabel : String
  dstId : Int
deriving DecidableEq

/-- The graph store's state. -/
structure Graph where
  nodes : List GraphNode
  rels : List GraphRel
deriving DecidableEq

/-- The empty graph. -/
def emptyGraph : Graph := ⟨[], []⟩

/-- Models `MATCH (n) DETACH DELETE n` (etl.py line 183). -/
def detachDeleteAll (_g : Graph) : Graph := emptyGraph

/-- Models `MATCH (x:Label {id: v})`: every node with that label and id. -/
def matchNodes (g : Graph) (label : String) (id : Int) : List GraphNode :=
  g.nodes.filter (fun n => n.label == label && n.id == id)

/-- One row of the category bulk-create (etl.py lines 217-220). -/
def createCategory (g : Graph) (r : CategoryRow) : Graph :=
  { g with nodes := g.nodes ++ [⟨"Category", r.id⟩] }

/-- One row of the product bulk-create (etl.py lines 228-238): the product
node is always created; the `IN_CATEGORY` edge is created once per matching
category node (zero edges when the foreign key dangles). -/
def createProduct (g : Graph) (r : ProductRow) : Graph :=
  let g1 : Graph := { g with nodes := g.nodes ++ [⟨"Product", r.id⟩] }
  let es : List GraphRel := (matchNodes g1 "Category" r.category_id).map
    (fun c => ⟨"IN_CATEGORY", "Product", r.id, c.label, c.id⟩)
  { g1 with rels := g1.rels ++ es }

/-- One row of the customer bulk-create (etl.py lines 246-253). -/
def createCustomer (g : Graph) (r : CustomerRow) : Graph :=
  { g with nodes := g.nodes ++ [⟨"Customer", r.id⟩] }

/-- One row of the order bulk-create (etl.py lines 264-273). -/
def createOrder (g : Graph) (r : OrderRow) : Graph :=
  let g1 : Graph := { g with nodes := g.nodes ++ [⟨"Order", r.id⟩] }
  let es : List GraphRel := (matchNodes g1 "Customer" r.customer_id).map
    (fun c => ⟨"PLACED", c.label, c.id, "Order", r.id⟩)
  { g1 with rels := g1.rels ++ es }

/-- One row of the order-item bulk-create (etl.py lines 285-290): a
`CONTAINS` edge per matched (order, product) pair, zero edges when either
match is empty. -/
def createOrderItem (g : Graph) (r : OrderItemRow) : Graph :=
  let es : List GraphRel := (matchNodes g "Order" r.order_id).flatMap (fun o =>
    (matchNodes g "Product" r.product_id).map
      (fun p => ⟨"CONTAINS", o.label, o.id, p.label, p.id⟩))
  { g with rels := g.rels ++ es }

/-- One per-row event mutation (etl.py lines 300-326): the relationship kind
is chosen by `relTypeOf` before the write. -/
def createEvent (g : Graph) (r : EventRow) : Graph :=
  let es : List GraphRel := (matchNodes g "Customer" r.customer_id).flatMap (fun c =>
    (matchNodes g "Product" r.product_id).map
      (fun p => ⟨relTypeOf r.event_type, c.label, c.id, p.label, p.id⟩))
  { g with rels := g.rels ++ es }

/-- Applies a per-row creation over the default chunking, mirroring
`for batch in chunk(df): ...` with the rows of each batch applied in order. -/
def loadRows (step : Graph → ρ → Graph) (g : Graph) (rows : List ρ) : Graph :=
  ((chunk rows 500).getD []).foldl (fun acc batch => batch.foldl step acc) g

/-- The six extracted tables (etl.py lines 186-210). -/
structure SourceData where
  categories : List CategoryRow
  products : List ProductRow
  customers : List CustomerRow
  orders : List OrderRow
  order_items : List OrderItemRow
  events : List EventRow

/-- The load phase of `etl()` (etl.py lines 176-327): reset, then load each
entity type in dependency order. -/
def etlLoad (src : SourceData) (g : Graph) : Graph :=
  let g0 := detachDeleteAll g
  let g1 := loadRows createCategory g0 src.categories
  let g2 := loadRows createProduct g1 src.products
  let g3 := loadRows createCustomer g2 src.customers
  let g4 := loadRows createOrder g3 src.orders
  let g5 := loadRows createOrderItem g4 src.order_items
  loadRows createEvent g5 src.events

/-- Node count, as reported by the verification queries. -/
def nodeCount (g : Graph) : Nat := g.nodes.length

/-- Relationship count, as reported by `MATCH ()-[r]->() RETURN count(r)`. -/
def relCount (g : Graph) : Nat := g.rels.length

/-! ## Resource handling of `etl()` (etl.py lines 152-352) -/

/-- Resource actions of one `etl()` run. -/
inductive ResAct where
  | openPg
  | openNeo
  | closePg
  | closeNeo
deriving DecidableEq

/-- Where a run can raise: during one of the two readiness waits, while
acquiring one of the two connections, or inside the `try` body. -/
inductive EtlFailure where
  | waitPg
  | waitNeo
  | connectPg
  | connectNeo
  | body
deriving DecidableEq

/-- The resource-action trace of `etl()` together with whether the run
succeeds, as a function of which step (if any) raises.  It mirrors the
source's control flow: `wait_for_postgres()` and `wait_for_neo4j()` run
first (no resources held); `psycopg2.connect` and `GraphDatabase.driver`
are called before the `try` block (etl.py lines 161-174), so a raise in
the driver acquisition happens with the PostgreSQL connection already open
and no `finally` yet installed; once the `try` is entered, the `finally`
block closes both connections on every exit (etl.py lines 349-352). -/
def etlResourceTrace (failure : Option EtlFailure) : List ResAct × Bool :=
  if failure = some EtlFailure.waitPg then ([], false)
  else if failure = some EtlFailure.waitNeo then ([], false)
  else if failure = some EtlFailure.connectPg then ([], false)
  else if failure = some EtlFailure.connectNeo then ([ResAct.openPg], false)
  else
    ([ResAct.openPg, ResAct.openNeo] ++ [ResAct.closePg, ResAct.closeNeo],
      failure != some EtlFailure.body)

/-! ## API endpoint error handling (main.py) -/

/-- An endpoint outcome: a JSON body, or an HTTPException with a status. -/
inductive ApiResponse (β : Type) where
  | body (payload : β)
  | httpError (status : Nat) (detail : String)
deriving DecidableEq

/-- The body returned by `/health`. -/
structure HealthBody where
  ok : Bool
  error : Option String
deriving DecidableEq

/-- Models `health_check` (main.py lines 50-66): the database probe either
succeeds or raises; both cases return a normal body. -/
def health_check (db : Except String Unit) : ApiResponse HealthBody :=
  match db with
  | Except.ok _ => ApiResponse.body ⟨true, none⟩
  | Except.error e => ApiResponse.body ⟨false, some e⟩

/-- Models `graph_stats` (main.py lines 69-104): a database exception is
turned into an HTTP 500 error. -/
def graph_stats (db : Except String β) : ApiResponse β :=
  match db with
  | Except.ok payload => ApiResponse.body payload
  | Except.error e => ApiResponse.httpError 500 ("Database error: " ++ e)

/-- Models `collaborative_recommendations` (main.py lines 107-166). -/
def collaborative_recommendations (db : Except String β) : ApiResponse β :=
  match db with
  | Except.ok payload => ApiResponse.body payload
  | Except.error e => ApiResponse.httpError 500 ("Database error: " ++ e)

/-- Models `similar_product_recommendations` (main.py lines 169-221). -/
def similar_product_recommendations (db : Except String β) : ApiResponse β :=
  match db with
  | Except.ok payload => ApiResponse.body payload
  | Except.error e => ApiResponse.httpError 500 ("Database error: " ++ e)

/-- Models `category_recommendations` (main.py lines 224-274). -/
def category_recommendations (db : Except String β) : ApiResponse β :=
  match db with
  | Except.ok payload => ApiResponse.body payload
  | Except.error e => ApiResponse.httpError 500 ("Database error: " ++ e)

/-- Models `trending_recommendations` (main.py lines 277-326). -/
def trending_recommendations (db : Except String β) : ApiResponse β :=
  match db with
  | Except.ok payload => ApiResponse.body payload
  | Except.error e => ApiResponse.httpError 500 ("Database error: " ++ e)

/-- Models `list_customers` (main.py lines 329-364). -/
def list_customers (db : Except String β) : ApiResponse β :=
  match db with
  | Except.ok payload => ApiResponse.body payload
  | Except.error e => ApiResponse.httpError 500 ("Database error: " ++ e)

/-- Models `list_products` (main.py lines 367-403). -/
def list_products (db : Except String β) : ApiResponse β :=
  match db with
  | Except.ok payload => ApiResponse.body payload
  | Except.error e => ApiResponse.httpError 500 ("Database error: " ++ e)

/-! ## Chunking lemmas -/

theorem rangeStep_of_stop_le (start stop step : Nat) (h : stop ≤ start) :
    rangeStep start stop step = [] := by
  unfold rangeStep
  rw [dif_neg (by omega)]

theorem rangeStep_pos (start stop step : Nat) (h1 : 0 < step) (h2 : start < stop) :
    rangeStep start stop step = start :: rangeStep (start + step) stop step := by
  conv_lhs => unfold rangeStep
  rw [dif_pos ⟨h1, h2⟩]

theorem rangeStep_shift (k s : Nat) :
    ∀ (n start stop : Nat), stop - start ≤ n →
      rangeStep (start + k) (stop + k) s = (rangeStep start stop s).map (fun x => x + k) := by
  intro n
  induction n with
  | zero =>
    intro start stop h
    rw [rangeStep_of_stop_le _ _ _ (by omega), rangeStep_of_stop_le _ _ _ (by omega)]
    rfl
  | succ n ih =>
    intro start stop h
    unfold rangeStep
    by_cases hc : 0 < s ∧ start < stop
    · rw [dif_pos (show 0 < s ∧ start + k < stop + k by omega), dif_pos hc, List.map_cons]
      congr 1
      rw [show start + k + s = (start + s) + k from by omega]
      exact ih (start + s) stop (by omega)
    · rw [dif_neg (show ¬(0 < s ∧ start + k < stop + k) by omega), dif_neg hc, List.map_nil]

theorem rangeStep_succ_shift (n s : Nat) :
    rangeStep s n s = (rangeStep 0 (n - s) s).map (fun x => x + s) := by
  by_cases h : n ≤ s
  · rw [rangeStep_of_stop_le s n s h, Nat.sub_eq_zero_of_le h, rangeStep_of_stop_le 0 0 s le_rfl]
    rfl
  · have he : n - s + s = n := Nat.sub_add_cancel (by omega)
    have hsh := rangeStep_shift s s (n - s) 0 (n - s) (by omega)
    rw [Nat.zero_add, he] at hsh
    exact hsh

theorem chunkGo_nil (s : Nat) : chunkGo ([] : List α) s = [] := by
  simp [chunkGo, rangeStep_of_stop_le]

theorem chunkGo_cons (data : List α) (s : Nat) (hs : 0 < s) :
    chunkGo data s = if data.length = 0 then [] else data.take s :: chunkGo (data.drop s) s := by
  by_cases h0 : data.length = 0
  · rw [if_pos h0, List.length_eq_zero.mp h0, chunkGo_nil]
  · rw [if_neg h0]
    unfold chunkGo
    rw [rangeStep_pos 0 data.length s hs (by omega), List.map_cons, List.drop_zero,
      Nat.zero_add, rangeStep_succ_shift data.length s, List.map_map, List.length_drop]
    congr 1
    have hfe : ((fun i => List.take s (List.drop i data)) ∘ fun x => x + s)
        = (fun i => List.take s (List.drop i (List.drop s data))) := by
      funext i
      show (data.drop (i + s)).take s = ((data.drop s).drop i).take s
      rw [List.drop_drop, Nat.add_comm s i]
    rw [hfe]

theorem chunkGo_flatten (s : Nat) (hs : 0 < s) :
    ∀ (n : Nat) (data : List α), data.length ≤ n → (chunkGo data s).flatten = data := by
  intro n
  induction n with
  | zero =>
    intro data h
    have hd : data = [] := List.length_eq_zero.mp (by omega)
    rw [hd, chunkGo_nil]
    rfl
  | succ n ih =>
    intro data h
    rw [chunkGo_cons data s hs]
    by_cases h0 : data.length = 0
    · have hd : data = [] := List.length_eq_zero.mp h0
      rw [if_pos h0, hd]
      rfl
    · rw [if_neg h0, List.flatten_cons, ih (data.drop s) (by rw [List.length_drop]; omega)]
      exact List.take_append_drop s data

theorem chunkGo_length (s : Nat) (hs : 0 < s) :
    ∀ (n : Nat) (data : List α), data.length ≤ n →
      (chunkGo data s).length = (data.length + s - 1) / s := by
  intro n
  induction n with
  | zero =>
    intro data h
    have hd : data = [] := List.length_eq_zero.mp (by omega)
    rw [hd, chunkGo_nil]
    simp only [List.length_nil]
    exact (Nat.div_eq_of_lt (by omega)).symm
  | succ n ih =>
    intro data h
    rw [chunkGo_cons data s hs]
    by_cases h0 : data.length = 0
    · rw [if_pos h0, h0]
      simp only [List.length_nil]
      exact (Nat.div_eq_of_lt (by omega)).symm
    · rw [if_neg h0]
      simp only [List.length_cons]
      rw [ih (data.drop s) (by rw [List.length_drop]; omega), List.length_drop]
      by_cases hls : data.length ≤ s
      · rw [Nat.sub_eq_zero_of_le hls]
        rw [Nat.div_eq_of_lt (show 0 + s - 1 < s by omega)]
        refine (Nat.div_eq_of_lt_le (by omega) (by omega)).symm
      · have e1 : data.length - s + s - 1 = data.length - 1 := by omega
        have e2 : data.length + s - 1 = (data.length - 1) + s := by omega
        rw [e1, e2, Nat.add_div_right _ hs]

theorem chunkGo_length_le (s : Nat) (hs : 0 < s) :
    ∀ (n : Nat) (data : List α), data.length ≤ n → ∀ g ∈ chunkGo data s, g.length ≤ s := by
  intro n
  induction n with
  | zero =>
    intro data h g hg
    have hd : data = [] := List.length_eq_zero.mp (by omega)
    rw [hd, chunkGo_nil] at hg
    simp at hg
  | succ n ih =>
    intro data h g hg
    rw [chunkGo_cons data s hs] at hg
    by_cases h0 : data.length = 0
    · rw [if_pos h0] at hg
      simp at hg
    · rw [if_neg h0] at hg
      rcases List.mem_cons.mp hg with rfl | hgt
      · rw [List.length_take]
        omega
      · exact ih (data.drop s) (by rw [List.length_drop]; omega) g hgt

theorem chunkGo_getLast (s : Nat) (hs : 0 < s) :
    ∀ (n : Nat) (data : List α), data.length ≤ n → data ≠ [] →
      ∃ last, (chunkGo data s).getLast? = some last ∧
        last.length = if data.length % s = 0 then s else data.length % s := by
  intro n
  induction n with
  | zero =>
    intro data h hne
    exact absurd (List.length_eq_zero.mp (by omega)) hne
  | succ n ih =>
    intro data h hne
    have h0 : data.length ≠ 0 := fun hh => hne (List.length_eq_zero.mp hh)
    rw [chunkGo_cons data s hs, if_neg h0]
    by_cases hds : data.length ≤ s
    · rw [List.drop_eq_nil_of_le hds, chunkGo_nil]
      refine ⟨data.take s, rfl, ?_⟩
      rw [List.length_take]
      by_cases he : data.length = s
      · rw [he, Nat.mod_self]
        simp
      · have hlt : data.length < s := by omega
        rw [Nat.mod_eq_of_lt hlt, if_neg h0, Nat.min_eq_right (le_of_lt hlt)]
    · have hdne : data.drop s ≠ [] := by
        intro hh
        have hl := congrArg List.length hh
        rw [List.length_drop] at hl
        simp at hl
        omega
      obtain ⟨last, hlast, hlen⟩ := ih (data.drop s) (by rw [List.length_drop]; omega) hdne
      refine ⟨last, ?_, ?_⟩
      · rcases hcg : chunkGo (data.drop s) s with _ | ⟨b, t⟩
        · rw [hcg] at hlast
          simp at hlast
        · rw [hcg] at hlast
          rw [List.getLast?_cons_cons]
          exact hlast
      · rw [List.length_drop] at hlen
        rw [Nat.mod_eq_sub_mod (show s ≤ data.length by omega)]
        exact hlen

theorem chunk_pos_eq (data : List α) (s : Int) (hs : 0 < s) :
    chunk data s = some (chunkGo data s.toNat) := by
  unfold chunk
  rw [if_neg (by omega), if_neg (by omega)]

/-! ## C1: chunk correctness for positive sizes -/

/-- C1: for every row sequence and every chunk size `s > 0`, `chunk` returns
exactly `ceil(n/s)` groups, each group has at most `s` rows, the groups
concatenate back to the input exactly (no reordering, duplication or loss),
an empty input yields zero groups, and the last group of a non-empty input
has `n mod s` rows (`s` when `s` divides `n`). -/
theorem chunk_spec (data : List α) (s : Int) (hs : 0 < s) :
    ∃ gs, chunk data s = some gs ∧
      gs.length = (data.length + s.toNat - 1) / s.toNat ∧
      (∀ g ∈ gs, g.length ≤ s.toNat) ∧
      gs.flatten = data ∧
      (data.length = 0 → gs = []) ∧
      (data ≠ [] → ∃ last, gs.getLast? = some last ∧
        last.length = if data.length % s.toNat = 0 then s.toNat else data.length % s.toNat) := by
  have hs' : 0 < s.toNat := by omega
  refine ⟨chunkGo data s.toNat, chunk_pos_eq data s hs, ?_, ?_, ?_, ?_, ?_⟩
  · exact chunkGo_length s.toNat hs' data.length data le_rfl
  · exact chunkGo_length_le s.toNat hs' data.length data le_rfl
  · exact chunkGo_flatten s.toNat hs' data.length data le_rfl
  · intro h0
    rw [List.length_eq_zero.mp h0, chunkGo_nil]
  · exact chunkGo_getLast s.toNat hs' data.length data le_rfl

/-- Witness for C1 at `data = [10, 20, 30]`, `s = 2`. -/
theorem chunk_spec_witness :
    ∃ gs, chunk [10, 20, 30] (2 : Int) = some gs ∧
      gs.length = (([10, 20, 30] : List Nat).length + (2 : Int).toNat - 1) / (2 : Int).toNat ∧
      (∀ g ∈ gs, g.length ≤ (2 : Int).toNat) ∧
      gs.flatten = [10, 20, 30] ∧
      (([10, 20, 30] : List Nat).length = 0 → gs = []) ∧
      (([10, 20, 30] : List Nat) ≠ [] → ∃ last, gs.getLast? = some last ∧
        last.length = if ([10, 20, 30] : List Nat).length % (2 : Int).toNat = 0
          then (2 : Int).toNat else ([10, 20, 30] : List Nat).length % (2 : Int).toNat) :=
  chunk_spec [10, 20, 30] 2 (by decide)

/-! ## C9: the `s > 0` precondition is unchecked -/

/-- C9: the chunk interface does not check the spec's `s > 0` precondition:
`chunk` with size `0` raises (Python `range` raises `ValueError` on a zero
step, modelled by `none`), and with a negative size on a non-empty input it
returns zero groups, silently dropping every row. -/
theorem chunk_unchecked_size (data : List α) (s : Int) (hneg : s < 0) (hne : data ≠ []) :
    chunk data (0 : Int) = none ∧ chunk data s = some [] := by
  refine ⟨?_, ?_⟩
  · unfold chunk
    rw [if_pos rfl]
  · unfold chunk
    rw [if_neg (by omega), if_pos hneg]

/-- Witness for C9 at `data = [7]`, `s = -1`. -/
theorem chunk_unchecked_size_witness :
    chunk ([7] : List Nat) (0 : Int) = none ∧ chunk ([7] : List Nat) (-1 : Int) = some [] :=
  chunk_unchecked_size [7] (-1) (by decide) (by decide)

/-! ## C5: one bulk mutation per chunk, one mutation per event row -/

/-- C5: for a batched entity type the loader issues one bulk mutation per
chunk, hence `ceil(n/500)` mutations with the default chunk size 500, and
the chunk payloads concatenate to the rows exactly; for events the loader
issues one mutation per event row, in row order, hence exactly
`row count` mutations. -/
theorem mutation_call_counts (rows events : List ρ) :
    (batchedLoadTrace rows).length = (rows.length + 499) / 500 ∧
    (batchedLoadTrace rows).flatten = rows ∧
    eventLoadTrace events = events ∧
    (eventLoadTrace events).length = events.length := by
  have h500 : ((500 : Int)).toNat = 500 := by decide
  have hb : batchedLoadTrace rows = chunkGo rows 500 := by
    unfold batchedLoadTrace
    rw [chunk_pos_eq rows 500 (by decide), h500]
    rfl
  have he : eventLoadTrace events = (chunkGo events 500).flatten := by
    unfold eventLoadTrace
    rw [chunk_pos_eq events 500 (by decide), h500]
    rfl
  have hflat : (chunkGo events 500).flatten = events :=
    chunkGo_flatten 500 (by omega) events.length events le_rfl
  refine ⟨?_, ?_, ?_, ?_⟩
  · rw [hb]
    have := chunkGo_length 500 (by omega) rows.length rows le_rfl
    omega
  · rw [hb]
    exact chunkGo_flatten 500 (by omega) rows.length rows le_rfl
  · rw [he]
    exact hflat
  · rw [he, hflat]

/-! ## C3: event-type to relationship-kind mapping -/

theorem lookup_rel_type_none (u : String) (h1 : u ≠ "VIEW") (h2 : u ≠ "CLICK")
    (h3 : u ≠ "ADD_TO_CART") : rel_type_map.lookup u = none := by
  have hb1 : (u == "VIEW") = false := beq_eq_false_iff_ne.mpr h1
  have hb2 : (u == "CLICK") = false := beq_eq_false_iff_ne.mpr h2
  have hb3 : (u == "ADD_TO_CART") = false := beq_eq_false_iff_ne.mpr h3
  simp [rel_type_map, List.lookup, hb1, hb2, hb3]

/-- C3: the relationship kind is a pure, case-insensitive function of the
`event_type` string: after uppercasing, an exact match against the fixed
table `{VIEW → VIEWED, CLICK → CLICKED, ADD_TO_CART → ADDED_TO_CART}`
selects the kind, any other value falls back to `INTERACTED_WITH`, the
result is always one of the four kinds, and every event row's mutation is
issued with exactly this kind (no row is dropped for an unknown type). -/
theorem event_type_mapping (et : String) :
    (pyUpper et = "VIEW" → relTypeOf et = "VIEWED") ∧
    (pyUpper et = "CLICK" → relTypeOf et = "CLICKED") ∧
    (pyUpper et = "ADD_TO_CART" → relTypeOf et = "ADDED_TO_CART") ∧
    (pyUpper et ≠ "VIEW" → pyUpper et ≠ "CLICK" → pyUpper et ≠ "ADD_TO_CART" →
      relTypeOf et = "INTERACTED_WITH") ∧
    (relTypeOf et = "VIEWED" ∨ relTypeOf et = "CLICKED" ∨
      relTypeOf et = "ADDED_TO_CART" ∨ relTypeOf et = "INTERACTED_WITH") ∧
    (∀ et2 : String, pyUpper et2 = pyUpper et → relTypeOf et2 = relTypeOf et) ∧
    (∀ (g : Graph) (r : EventRow), ∃ newRels,
      createEvent g r = { g with rels := g.rels ++ newRels } ∧
      ∀ e ∈ newRels, e.kind = relTypeOf r.event_type) := by
  have hv : pyUpper et = "VIEW" → relTypeOf et = "VIEWED" := by
    intro h
    unfold relTypeOf
    rw [h]
    decide
  have hc : pyUpper et = "CLICK" → relTypeOf et = "CLICKED" := by
    intro h
    unfold relTypeOf
    rw [h]
    decide
  have ha : pyUpper et = "ADD_TO_CART" → relTypeOf et = "ADDED_TO_CART" := by
    intro h
    unfold relTypeOf
    rw [h]
    decide
  have hd : pyUpper et ≠ "VIEW" → pyUpper et ≠ "CLICK" → pyUpper et ≠ "ADD_TO_CART" →
      relTypeOf et = "INTERACTED_WITH" := by
    intro h1 h2 h3
    unfold relTypeOf
    rw [lookup_rel_type_none _ h1 h2 h3]
    rfl
  have hmem : relTypeOf et = "VIEWED" ∨ relTypeOf et = "CLICKED" ∨
      relTypeOf et = "ADDED_TO_CART" ∨ relTypeOf et = "INTERACTED_WITH" := by
    by_cases h1 : pyUpper et = "VIEW"
    · exact Or.inl (hv h1)
    · by_cases h2 : pyUpper et = "CLICK"
      · exact Or.inr (Or.inl (hc h2))
      · by_cases h3 : pyUpper et = "ADD_TO_CART"
        · exact Or.inr (Or.inr (Or.inl (ha h3)))
        · exact Or.inr (Or.inr (Or.inr (hd h1 h2 h3)))
  have hcong : ∀ et2 : String, pyUpper et2 = pyUpper et → relTypeOf et2 = relTypeOf et := by
    intro et2 h
    unfold relTypeOf
    rw [h]
  have hload : ∀ (g : Graph) (r : EventRow), ∃ newRels,
      createEvent g r = { g with rels := g.rels ++ newRels } ∧
      ∀ e ∈ newRels, e.kind = relTypeOf r.event_type := by
    intro g r
    refine ⟨_, rfl, ?_⟩
    intro e he
    rw [List.mem_flatMap] at he
    obtain ⟨c, _, he2⟩ := he
    rw [List.mem_map] at he2
    obtain ⟨p, _, rfl⟩ := he2
    rfl
  exact ⟨hv, hc, ha, hd, hmem, hcong, hload⟩

/-- Witness for C3 at the inputs `"view"` (mapped) and `"PURCHASE"`
(fallback). -/
theorem event_type_mapping_witness :
    relTypeOf "view" = "VIEWED" ∧ relTypeOf "PURCHASE" = "INTERACTED_WITH" := by
  refine ⟨(event_type_mapping "view").1 (by decide), ?_⟩
  exact (event_type_mapping "PURCHASE").2.2.2.1 (by decide) (by decide) (by decide)

/-! ## C4: two consecutive runs produce the same counts -/

/-- C4: running the load twice against the same relational source yields the
same final graph (hence identical node and relationship counts) both times,
because every run begins with the full detach-delete, which makes the result
independent of the graph's prior content. -/
theorem etl_full_reload_idempotent (src : SourceData) (g : Graph) :
    nodeCount (etlLoad src (etlLoad src g)) = nodeCount (etlLoad src g) ∧
    relCount (etlLoad src (etlLoad src g)) = relCount (etlLoad src g) ∧
    etlLoad src (etlLoad src g) = etlLoad src g ∧
    detachDeleteAll g = emptyGraph := by
  have h : ∀ g' : Graph, etlLoad src g' = etlLoad src g := fun g' => rfl
  exact ⟨congrArg nodeCount (h _), congrArg relCount (h _), h _, rfl⟩

/-! ## C8: referential gaps in order items are silently skipped -/

theorem flatMap_fun_nil (l : List GraphNode) :
    (l.flatMap fun _ => ([] : List GraphRel)) = [] := by
  induction l with
  | nil => rfl
  | cons a t ih => rw [List.flatMap_cons a t _, ih]; rfl

/-- C8: an order_items row whose `order_id` or `product_id` matches no
node creates zero `CONTAINS` edges and leaves the graph unchanged; the
creation function is total (no error is raised), and the run continues with
the remaining rows exactly as if the row had been processed. -/
theorem order_item_referential_gap (g : Graph) (r : OrderItemRow)
    (h : matchNodes g "Order" r.order_id = [] ∨ matchNodes g "Product" r.product_id = []) :
    createOrderItem g r = g ∧
    ∀ rest : List OrderItemRow,
      (r :: rest).foldl createOrderItem g = rest.foldl createOrderItem g := by
  have h1 : createOrderItem g r = g := by
    unfold createOrderItem
    rcases h with h | h
    · rw [h]
      simp
    · rw [h]
      simp [flatMap_fun_nil]
  refine ⟨h1, ?_⟩
  intro rest
  rw [List.foldl_cons, h1]

/-- Witness for C8: the row `(order_id 1, product_id 2, quantity 3)` against
the empty graph. -/
theorem order_item_referential_gap_witness :
    createOrderItem emptyGraph ⟨1, 2, 3⟩ = emptyGraph ∧
    (([⟨1, 2, 3⟩] : List OrderItemRow).foldl createOrderItem emptyGraph =
      ([] : List OrderItemRow).foldl createOrderItem emptyGraph) := by
  have h := order_item_referential_gap emptyGraph ⟨1, 2, 3⟩ (Or.inl (by decide))
  exact ⟨h.1, h.2 []⟩

/-! ## C6: connection release on exit paths -/

/-- C6 counterexample: the claim that both store connections are released on
every exit path, including a failure while acquiring either connection, is
false — when acquiring the graph driver raises, the already-open relational
connection is never closed, because both acquisitions happen before the
`try`/`finally` (etl.py lines 161-174 versus 349-352). -/
theorem etl_release_counterexample :
    (etlResourceTrace (some EtlFailure.connectNeo)).1 = [ResAct.openPg] ∧
    ResAct.openPg ∈ (etlResourceTrace (some EtlFailure.connectNeo)).1 ∧
    ResAct.closePg ∉ (etlResourceTrace (some EtlFailure.connectNeo)).1 ∧
    ResAct.closeNeo ∉ (etlResourceTrace (some EtlFailure.connectNeo)).1 := by
  decide

/-- C6 (amended): once both connections are acquired (the `try` block is
entered), every exit path — success or a failure inside the body — ends by
releasing the relational connection and then the graph driver as the run's
final actions; failures before or during acquisition never reach the
release code. -/
theorem etl_release_after_acquisition (failure : Option EtlFailure)
    (h : failure ≠ some EtlFailure.waitPg ∧ failure ≠ some EtlFailure.waitNeo ∧
      failure ≠ some EtlFailure.connectPg ∧ failure ≠ some EtlFailure.connectNeo) :
    (etlResourceTrace failure).1 =
      [ResAct.openPg, ResAct.openNeo, ResAct.closePg, ResAct.closeNeo] := by
  rcases failure with _ | f
  · decide
  · cases f <;> revert h <;> decide

/-- Witness for C6 (amended) at a failure inside the `try` body. -/
theorem etl_release_after_acquisition_witness :
    (etlResourceTrace (some EtlFailure.body)).1 =
      [ResAct.openPg, ResAct.openNeo, ResAct.closePg, ResAct.closeNeo] :=
  etl_release_after_acquisition (some EtlFailure.body) (by decide)

/-! ## C10: /health never raises, other endpoints return HTTP 500 -/

/-- C10: `/health` never raises on a database failure — it returns a
success-shaped body, with `ok = false` and the error message on failure —
while every other read endpoint translates the same database error into an
HTTP 500 error response. -/
theorem health_error_handling (db : Except String Unit) (e : String) :
    (∃ b, health_check db = ApiResponse.body b) ∧
    health_check (Except.error e) = ApiResponse.body ⟨false, some e⟩ ∧
    @graph_stats Unit (Except.error e) =
      ApiResponse.httpError 500 ("Database error: " ++ e) ∧
    @collaborative_recommendations Unit (Except.error e) =
      ApiResponse.httpError 500 ("Database error: " ++ e) ∧
    @similar_product_recommendations Unit (Except.error e) =
      ApiResponse.httpError 500 ("Database error: " ++ e) ∧
    @category_recommendations Unit (Except.error e) =
      ApiResponse.httpError 500 ("Database error: " ++ e) ∧
    @trending_recommendations Unit (Except.error e) =
      ApiResponse.httpError 500 ("Database error: " ++ e) ∧
    @list_customers Unit (Except.error e) =
      ApiResponse.httpError 500 ("Database error: " ++ e) ∧
    @list_products Unit (Except.error e) =
      ApiResponse.httpError 500 ("Database error: " ++ e) := by
  refine ⟨?_, rfl, rfl, rfl, rfl, rfl, rfl, rfl, rfl⟩
  cases db with
  | ok u => exact ⟨⟨true, none⟩, rfl⟩
  | error e2 => exact ⟨⟨false, some e2⟩, rfl⟩

/-! ## C7: cypher file statement selection -/

theorem pySplitChar_ne_nil (sep : Char) (s : List Char) :
    ∃ seg segs, pySplitChar sep s = seg :: segs := by
  cases s with
  | nil => exact ⟨[], [], rfl⟩
  | cons c rest =>
    unfold pySplitChar
    by_cases hc : c = sep
    · rw [if_pos hc]
      exact ⟨[], pySplitChar sep rest, rfl⟩
    · rw [if_neg hc]
      cases h : pySplitChar sep rest with
      | nil => exact ⟨[c], [], rfl⟩
      | cons a as => exact ⟨c :: a, as, rfl⟩

theorem joinSep_cons_cons (sep : Char) (x y : List Char) (xs : List (List Char)) :
    joinSep sep (x :: y :: xs) = x ++ sep :: joinSep sep (y :: xs) := rfl

theorem joinSep_pySplitChar (sep : Char) (s : List Char) :
    joinSep sep (pySplitChar sep s) = s := by
  induction s with
  | nil => rfl
  | cons c rest ih =>
    unfold pySplitChar
    obtain ⟨seg, segs, hsplit⟩ := pySplitChar_ne_nil sep rest
    by_cases hc : c = sep
    · rw [if_pos hc, hsplit, joinSep_cons_cons]
      simp only [List.nil_append]
      rw [← hsplit, ih, hc]
    · rw [if_neg hc, hsplit]
      show joinSep sep ((c :: seg) :: segs) = c :: rest
      rw [hsplit] at ih
      cases segs with
      | nil =>
        have hseg : seg = rest := ih
        show c :: seg = c :: rest
        rw [hseg]
      | cons b t =>
        rw [joinSep_cons_cons] at ih
        rw [joinSep_cons_cons, List.cons_append]
        exact congrArg (List.cons c) ih

theorem runCypherFileStatements_eq (content : List Char) :
    runCypherFileStatements content = cypherStatements content := by
  unfold runCypherFileStatements
  apply List.filter_eq_self.mpr
  intro a ha
  unfold cypherStatements at ha
  simp only [List.mem_filter, Bool.and_eq_true] at ha
  obtain ⟨-, hb, -⟩ := ha
  exact hb

/-- C7 counterexample: for the file content `"// a\nX;"` the claim's
line-based reading executes the statement `X`, but `run_cypher_file`
executes nothing — the blank/`//` filter is applied to whole
semicolon-separated statements, not to lines, so a statement whose first
line is a `//` comment is dropped entirely, together with its code lines. -/
theorem cypher_comment_line_counterexample :
    runCypherFileStatements (String.toList "// a\nX;") = [] ∧
    claimedStatements (String.toList "// a\nX;") = [[ 'X']] := by
  decide

/-- C7 (amended): `run_cypher_file` splits the file content into
semicolon-separated statements (splitting is inverted by rejoining with
semicolons), strips each piece, ignores pieces that are blank or whose
stripped text starts with `//`, and executes every remaining stripped piece
in file order (a subsequence of the stripped pieces, each executed
statement non-blank and not `//`-prefixed). -/
theorem run_cypher_file_statement_selection (content : List Char) :
    joinSep ';' (pySplitChar ';' content) = content ∧
    runCypherFileStatements content =
      ((pySplitChar ';' content).map pyStrip).filter
        (fun t => !t.isEmpty && !(commentMarker.isPrefixOf t)) ∧
    List.Sublist (runCypherFileStatements content)
      ((pySplitChar ';' content).map pyStrip) ∧
    ∀ t ∈ runCypherFileStatements content,
      t ≠ [] ∧ commentMarker.isPrefixOf t = false := by
  have he : runCypherFileStatements content = cypherStatements content :=
    runCypherFileStatements_eq content
  refine ⟨joinSep_pySplitChar ';' content, ?_, ?_, ?_⟩
  · rw [he]
    rfl
  · rw [he]
    exact List.filter_sublist _
  · intro t ht
    rw [he] at ht
    unfold cypherStatements at ht
    simp only [List.mem_filter, Bool.and_eq_true, Bool.not_eq_true'] at ht
    obtain ⟨-, hb1, hb2⟩ := ht
    refine ⟨?_, hb2⟩
    intro hnil
    rw [hnil] at hb1
    simp at hb1

/-- Witness for C7 (amended) at the content `"A;// b\nC;"`, whose executed
statements are `A` and `C`. -/
theorem run_cypher_file_statement_selection_witness :
    joinSep ';' (pySplitChar ';' (String.toList "A;// b\nC;")) = String.toList "A;// b\nC;" ∧
    runCypherFileStatements (String.toList "A;// b\nC;") =
      ((pySplitChar ';' (String.toList "A;// b\nC;")).map pyStrip).filter
        (fun t => !t.isEmpty && !(commentMarker.isPrefixOf t)) ∧
    List.Sublist (runCypherFileStatements (String.toList "A;// b\nC;"))
      ((pySplitChar ';' (String.toList "A;// b\nC;")).map pyStrip) ∧
    (([ 'A'] : List Char) ≠ [] ∧ commentMarker.isPrefixOf [ 'A'] = false) := by
  have h := run_cypher_file_statement_selection (String.toList "A;// b\nC;")
  exact ⟨h.1, h.2.1, h.2.2.1, h.2.2.2 [ 'A'] (by decide)⟩

/-! ## C2: timestamp normalization -/

theorem digitChar_ne_plus (d : Nat) : digitChar d ≠ '+' := by
  unfold digitChar
  split_ifs <;> decide

theorem mem_natDigitsAux :
    ∀ (n : Nat) (acc : List Char) (c : Char), c ∈ natDigitsAux n acc →
      c ∈ acc ∨ ∃ d, c = digitChar d := by
  intro n
  induction n using Nat.strong_induction_on with
  | _ n ih =>
    intro acc c hc
    cases n with
    | zero =>
      simp only [natDigitsAux] at hc
      exact Or.inl hc
    | succ m =>
      simp only [natDigitsAux] at hc
      rcases ih ((m + 1) / 10) (Nat.div_lt_self (Nat.succ_pos m) (by omega)) _ c hc with h | h
      · rcases List.mem_cons.mp h with h2 | h2
        · exact Or.inr ⟨(m + 1) % 10, h2⟩
        · exact Or.inl h2
      · exact Or.inr h

theorem plus_notin_natDigits (n : Nat) : '+' ∉ natDigits n := by
  unfold natDigits
  split_ifs
  · decide
  · intro hc
    rcases mem_natDigitsAux n [] '+' hc with h | ⟨d, hd⟩
    · simp at h
    · exact digitChar_ne_plus d hd.symm

theorem plus_notin_padNum (w n : Nat) : '+' ∉ padNum w n := by
  unfold padNum
  intro hc
  rcases List.mem_append.mp hc with h | h
  · exact absurd (List.eq_of_mem_replicate h) (by decide)
  · exact plus_notin_natDigits n h

theorem plus_notin_intPad4 (y : Int) : '+' ∉ intPad4 y := by
  unfold intPad4
  split_ifs
  · intro hc
    rcases List.mem_cons.mp hc with h | h
    · exact absurd h (by decide)
    · exact plus_notin_padNum 4 y.natAbs h
  · exact plus_notin_padNum 4 y.natAbs

theorem plus_notin_civilString (sec : Int) : '+' ∉ civilString sec := by
  unfold civilString
  intro hc
  simp only [List.mem_append, List.mem_cons] at hc
  rcases hc with ((((h | h | h) | h | h) | h | h) | h | h) | h | h
  · exact plus_notin_intPad4 _ h
  · exact absurd h (by decide)
  · exact plus_notin_padNum 2 _ h
  · exact absurd h (by decide)
  · exact plus_notin_padNum 2 _ h
  · exact absurd h (by decide)
  · exact plus_notin_padNum 2 _ h
  · exact absurd h (by decide)
  · exact plus_notin_padNum 2 _ h
  · exact absurd h (by decide)
  · exact plus_notin_padNum 2 _ h

theorem isPrefixOf_self (l : List Char) : l.isPrefixOf l = true := by
  induction l with
  | nil => rfl
  | cons a t ih => simp [List.isPrefixOf, ih]

theorem listReplace_nil (pat rep : List Char) : listReplace [] pat rep = [] := by
  unfold listReplace
  rfl

theorem listReplace_pos (c : Char) (rest pat rep : List Char)
    (h : pat ≠ [] ∧ pat.isPrefixOf (c :: rest) = true) :
    listReplace (c :: rest) pat rep =
      rep ++ listReplace ((c :: rest).drop pat.length) pat rep := by
  conv_lhs => unfold listReplace
  rw [dif_pos h]

theorem listReplace_neg (c : Char) (rest pat rep : List Char)
    (h : ¬(pat ≠ [] ∧ pat.isPrefixOf (c :: rest) = true)) :
    listReplace (c :: rest) pat rep = c :: listReplace rest pat rep := by
  conv_lhs => unfold listReplace
  rw [dif_neg h]

theorem listReplace_eats (pat rep : List Char) (hp : pat ≠ []) :
    listReplace pat pat rep = rep := by
  cases hpat : pat with
  | nil => exact absurd hpat hp
  | cons c rest =>
    rw [listReplace_pos c rest (c :: rest) rep ⟨by simp, isPrefixOf_self (c :: rest)⟩]
    rw [List.drop_length, listReplace_nil, List.append_nil]

theorem listReplace_append_left (b t pat rep : List Char) (c0 : Char)
    (hhead : ∃ q, pat = c0 :: q) (hb : c0 ∉ b) :
    listReplace (b ++ t) pat rep = b ++ listReplace t pat rep := by
  induction b with
  | nil => rfl
  | cons x xs ih =>
    have hx : c0 ≠ x := by
      intro hh
      exact hb (hh ▸ List.mem_cons_self x xs)
    have hcond : ¬(pat ≠ [] ∧ pat.isPrefixOf (x :: (xs ++ t)) = true) := by
      obtain ⟨q, hq⟩ := hhead
      rintro ⟨-, hpre⟩
      rw [hq] at hpre
      simp only [List.isPrefixOf, Bool.and_eq_true, beq_iff_eq] at hpre
      exact hx hpre.1
    show listReplace (x :: (xs ++ t)) pat rep = x :: (xs ++ listReplace t pat rep)
    rw [listReplace_neg x (xs ++ t) pat rep hcond]
    rw [ih (fun hm => hb (List.mem_cons_of_mem x hm))]

theorem tsToGraph_utc (i : Int) :
    tsToGraph ⟨i, some 0⟩ = civilString i ++ [ 'Z'] := by
  have hiso : isoformat ⟨i, some 0⟩ = civilString (i + 60 * 0) ++ offsetSuffix 0 := rfl
  have h60 : i + 60 * 0 = i := by omega
  have hos : offsetSuffix 0 = String.toList "+00:00" := by decide
  unfold tsToGraph
  rw [hiso, h60, hos]
  rw [listReplace_append_left (civilString i) (String.toList "+00:00")
    (String.toList "+00:00") [ 'Z'] '+' ⟨String.toList "00:00", by decide⟩
    (plus_notin_civilString i)]
  rw [listReplace_eats (String.toList "+00:00") [ 'Z'] (by decide)]

/-- C2: every zoned source timestamp reaches the graph store as the ISO-8601
string of its instant with the explicit UTC designator `Z`, regardless of
how the source represents the offset; in particular two source timestamps
denoting the same instant — for example one written with a `+00:00` offset
and one with no explicit offset — normalize to the same `Z`-suffixed
string. -/
theorem timestamp_normalization (s1 s2 : SourceTs) (h : srcInstant s1 = srcInstant s2) :
    tsToGraph (extractTs s1) = civilString (srcInstant s1) ++ [ 'Z'] ∧
    tsToGraph (extractTs s1) = tsToGraph (extractTs s2) := by
  have h1 : tsToGraph (extractTs s1) = civilString (srcInstant s1) ++ [ 'Z'] :=
    tsToGraph_utc (srcInstant s1)
  have h2 : tsToGraph (extractTs s2) = civilString (srcInstant s2) ++ [ 'Z'] :=
    tsToGraph_utc (srcInstant s2)
  refine ⟨h1, ?_⟩
  rw [h1, h2, h]

/-- Witness for C2: the epoch instant written with a `+00:00` offset and
with no explicit offset. -/
theorem timestamp_normalization_witness :
    srcInstant ⟨0, some 0⟩ = srcInstant ⟨0, none⟩ ∧
    tsToGraph (extractTs ⟨0, some 0⟩) = civilString (srcInstant ⟨0, some 0⟩) ++ [ 'Z'] ∧
    tsToGraph (extractTs ⟨0, some 0⟩) = tsToGraph (extractTs ⟨0, none⟩) := by
  have h : srcInstant ⟨0, some 0⟩ = srcInstant ⟨0, none⟩ := by decide
  have ht := timestamp_normalization ⟨0, some 0⟩ ⟨0, none⟩ h
  exact ⟨h, ht.1, ht.2⟩

end ShopGraph
